import Mathlib

/-!
Verification of the real-time chat core of KewlKidsOrgMobile.

This file gives a shallow embedding of the relevant backend code:

* backend/chat/consumers.py  (ChatConsumer, UserNotificationConsumer)
* backend/chat/middleware.py (JWTAuthMiddleware)
* backend/chat/models.py and backend/families/models.py (ChatRoom,
  Message, Member data model)
* backend/chat/routing.py    (the room id URL kwarg is a digit string)

Machine-level conventions of the embedding:

* Python byte strings are List Nat with entries below 256.
* JSON values that can occur in the chat frames are the inductive J.
* Django rows are Lean structures; a database snapshot is the DB
  structure holding the row lists.
* The pub/sub group names chat_<room_id> and
  user_notifications_<user_id> are modelled by the tagged sum GroupId;
  the two f-string prefixes are disjoint, and the decimal rendering of
  the id is injective, so the tagged sum is name-faithful.
* Exceptions that escape a Python function are modelled with Except;
  exceptions that the source catches locally are folded into the
  result value exactly where the source catches them.
-/

/-- JSON values that occur in the chat protocol frames. -/
inductive J where
  | null : J
  | bool : Bool → J
  | int : Int → J
  | str : String → J
deriving DecidableEq, Repr

/-- Python truthiness of a JSON-decoded value, as used by the checks
if not ciphertext or not iv in ChatConsumer.receive. -/
def J.truthy : J → Bool
  | .null => false
  | .bool b => b
  | .int n => n ≠ 0
  | .str s => s ≠ ""

/-- An outbound JSON object frame, as an ordered key/value list. -/
def Frame := List (String × J)
deriving instance DecidableEq, Repr for Frame

/-- Field access on a frame (first binding of the key). -/
def fget (f : Frame) (k : String) : Option J :=
  (f.find? (fun p => p.1 == k)).map (·.2)

/-- A Django auth User together with the profile data the chat code
reads: users.id, users.email, profile.display_name (none when the user
has no profile or a blank display name) and whether profile.photo is
set. -/
structure User where
  id : Nat
  email : String
  displayName : Option String
  hasPhoto : Bool
deriving DecidableEq, Repr

/-- A families.Member row: a (family, user) pairing with a role. The
chat code never reads the role or is_active, so only the columns it
consults are embedded. -/
structure Member where
  id : Nat
  familyId : Nat
  userId : Nat
deriving DecidableEq, Repr

/-- A chat.ChatRoom row together with its many-to-many member id set
(room.members). -/
structure ChatRoom where
  id : Nat
  familyId : Nat
  memberIds : List Nat
deriving DecidableEq, Repr

/-- A chat.Message row. body_ciphertext and iv are BinaryField byte
blobs; created_at (auto_now_add) is modelled by a monotone counter. -/
structure Message where
  id : Nat
  roomId : Nat
  senderId : Nat
  bodyCiphertext : List Nat
  iv : List Nat
  createdAt : Nat
deriving DecidableEq, Repr

/-- A database snapshot: the row lists the chat code queries, plus the
id counter used for new Message rows. -/
structure DB where
  users : List User
  members : List Member
  rooms : List ChatRoom
  messages : List Message
  nextMessageId : Nat
deriving DecidableEq, Repr

/-- Row-level integrity the schema enforces: primary keys are unique,
Member has unique_together (family, user), and the ChatRoom.members
through table has one row per (room, member) pair. -/
def DB.wf (db : DB) : Prop :=
  (db.rooms.map (·.id)).Nodup ∧
  (db.members.map (·.id)).Nodup ∧
  (db.members.map (fun m => (m.familyId, m.userId))).Nodup ∧
  ∀ r ∈ db.rooms, r.memberIds.Nodup

instance (db : DB) : Decidable db.wf := by
  unfold DB.wf; infer_instance

/-- The data-model invariant of the spec (section 3): every member of a
Room is a member of the Room.s owning tenant. It is stated for one
room: each entry of room.members is an existing Member row of the
room.s family. -/
def roomMembersInFamily (db : DB) (room : ChatRoom) : Prop :=
  ∀ mid ∈ room.memberIds, ∃ m ∈ db.members, m.id = mid ∧ m.familyId = room.familyId

instance (db : DB) (room : ChatRoom) : Decidable (roomMembersInFamily db room) := by
  unfold roomMembersInFamily; infer_instance

/-- Python int() on the digit strings produced by the URL pattern
(?P<room_id>[0-9]+). -/
def pyIntChars (cs : List Char) : Nat :=
  cs.foldl (fun a c => a * 10 + (c.toNat - 48)) 0

/-- Python int() on a digit string. -/
def pyInt (s : String) : Nat := pyIntChars s.data

/-- The standard base64 alphabet: value to character. -/
def b64Char (v : Nat) : Char :=
  if v < 26 then Char.ofNat (65 + v)
  else if v < 52 then Char.ofNat (71 + v)
  else if v < 62 then Char.ofNat (v - 4)
  else if v = 62 then '+'
  else '/'

/-- The standard base64 alphabet: character to value (none for
characters outside the alphabet). -/
def b64Index (c : Char) : Option Nat :=
  let n := c.toNat
  if 65 ≤ n ∧ n ≤ 90 then some (n - 65)
  else if 97 ≤ n ∧ n ≤ 122 then some (n - 71)
  else if 48 ≤ n ∧ n ≤ 57 then some (n + 4)
  else if n = 43 then some 62
  else if n = 47 then some 63
  else none

/-- base64.b64encode on a byte list, producing the character list of
the ascii-decoded result, exactly as lines 148 to 149 of consumers.py
compute base64.b64encode(stored).decode(utf-8). -/
def b64encodeBytes : List Nat → List Char
  | [] => []
  | [a] => [b64Char (a / 4 % 64), b64Char (a % 4 * 16), '=', '=']
  | [a, b] => [b64Char (a / 4 % 64), b64Char (a % 4 * 16 + b / 16 % 16), b64Char (b % 16 * 4), '=']
  | a :: b :: c :: rest =>
      b64Char (a / 4 % 64) :: b64Char (a % 4 * 16 + b / 16 % 16) ::
      b64Char (b % 16 * 4 + c / 64 % 4) :: b64Char (c % 64) :: b64encodeBytes rest

/-- base64.b64encode of a byte list as a string. -/
def b64encode (bs : List Nat) : String := ⟨b64encodeBytes bs⟩

/-- CPython binascii.a2b_base64 in non-strict mode (the semantics of
base64.b64decode with validate=False, the call on lines 258 and 263 of
consumers.py): characters outside the alphabet are skipped; a padding
character closing a quad of 2 or 3 data characters ends the decode and
discards the rest; leftover bits of a partial final group are dropped;
a dangling group at end of input is an error (binascii.Error).
Arguments: remaining input, quad position (0 to 3), pads seen at the
current quad, value of the carried bits, output bytes so far. -/
def a2bBase64 : List Char → Nat → Nat → Nat → List Nat → Option (List Nat)
  | [], quadPos, _, _, out => if quadPos = 0 then some out else none
  | c :: cs, quadPos, pads, leftover, out =>
    if c = '=' then
      if 2 ≤ quadPos then
        if 4 ≤ quadPos + pads + 1 then some out
        else a2bBase64 cs quadPos (pads + 1) leftover out
      else a2bBase64 cs quadPos pads leftover out
    else
      match b64Index c with
      | none => a2bBase64 cs quadPos pads leftover out
      | some v =>
        match quadPos with
        | 0 => a2bBase64 cs 1 pads v out
        | 1 => a2bBase64 cs 2 pads (v % 16) (out ++ [leftover * 4 + v / 16])
        | 2 => a2bBase64 cs 3 pads (v % 4) (out ++ [leftover * 16 + v / 4])
        | _ => a2bBase64 cs 0 pads 0 (out ++ [leftover * 64 + v])

/-- base64.b64decode on a string: some bytes on success, none when
binascii raises (the caller in save_message catches the exception). -/
def b64decodeStr (s : String) : Option (List Nat) :=
  a2bBase64 s.data 0 0 0 []

/-- The identity of a channel-layer broadcast group. room r stands for
the group name chat_r (r the URL room id string, consumers.py line
24); userNotif u stands for user_notifications_u (consumers.py lines
192 and 305). The two name families are disjoint and the decimal id
rendering is injective, so the tagged sum is faithful to the string
names. -/
inductive GroupId where
  | room : String → GroupId
  | userNotif : Nat → GroupId
deriving DecidableEq, Repr

/-- The user value found in the consumer scope, as set by
JWTAuthMiddleware: None (get_user found no row), AnonymousUser, or an
authenticated User. -/
inductive ScopeUser where
  | noneU : ScopeUser
  | anon : ScopeUser
  | auth : User → ScopeUser
deriving DecidableEq, Repr

/-- ChatConsumer.check_room_access (consumers.py lines 66 to 80): the
room is fetched by id, then room.family.members.filter(user=user) is
tested for existence; a missing room or any exception yields False. -/
def check_room_access (db : DB) (userId : Nat) (roomId : Nat) : Bool :=
  match db.rooms.find? (fun r => r.id == roomId) with
  | none => false
  | some room => db.members.any (fun m => m.familyId == room.familyId && m.userId == userId)

/-- The observable outcome of a connect handler: the close code it
sent (if any), whether the transport was accepted, and the groups the
channel was added to. -/
structure ConnectOut where
  closedWith : Option Nat
  accepted : Bool
  joinedGroups : List GroupId
deriving DecidableEq, Repr

/-- ChatConsumer.connect (consumers.py lines 13 to 43): an absent or
anonymous scope user is refused with close code 4001; an authenticated
user failing check_room_access is refused with 4003; otherwise the
channel joins the room group and the connection is accepted. -/
def ChatConsumer.connect (db : DB) (user : ScopeUser) (roomIdStr : String) : ConnectOut :=
  match user with
  | .noneU => ⟨some 4001, false, []⟩
  | .anon => ⟨some 4001, false, []⟩
  | .auth u =>
    if check_room_access db u.id (pyInt roomIdStr) then
      ⟨none, true, [GroupId.room roomIdStr]⟩
    else
      ⟨some 4003, false, []⟩

/-- The frames a connection receives from a list of published group
events: exactly the events of groups the connection has joined
(channel-layer delivery). -/
def deliveredTo (joined : List GroupId) (published : List (GroupId × Frame)) : List Frame :=
  (published.filter (fun p => p.1 ∈ joined)).map (·.2)

/-- ChatConsumer.get_user_display_name (consumers.py lines 45 to 53):
profile.display_name when present and non-blank, else user.email. -/
def get_user_display_name (u : User) : String :=
  u.displayName.getD u.email

/-- ChatConsumer.get_user_photo_url (consumers.py lines 55 to 64). -/
def get_user_photo_url (u : User) : Option String :=
  if u.hasPhoto then some ("/api/users/" ++ toString u.id ++ "/photo/") else none

/-- ChatConsumer.save_message (consumers.py lines 237 to 288): fetch
the room, fetch the (user, room.family) member, verify the member is
in room.members, base64-decode string payloads (a non-string,
non-bytes payload raises ValueError), create the Message row. Every
exception, including Room/Member DoesNotExist, the membership check
and binascii errors, is caught and folded to None with the database
unchanged. -/
def save_message (db : DB) (roomId : Nat) (u : User) (ciphertext iv : J) :
    Option Message × DB :=
  match db.rooms.find? (fun r => r.id == roomId) with
  | none => (none, db)
  | some room =>
    match db.members.find? (fun m => m.userId == u.id && m.familyId == room.familyId) with
    | none => (none, db)
    | some member =>
      if member.id ∈ room.memberIds then
        match ciphertext with
        | .str cs =>
          match b64decodeStr cs with
          | none => (none, db)
          | some ctBytes =>
            match iv with
            | .str ivs =>
              match b64decodeStr ivs with
              | none => (none, db)
              | some ivBytes =>
                let msg : Message :=
                  ⟨db.nextMessageId, roomId, member.id, ctBytes, ivBytes, db.nextMessageId⟩
                (some msg,
                 { db with messages := db.messages ++ [msg],
                           nextMessageId := db.nextMessageId + 1 })
            | _ => (none, db)
        | _ => (none, db)
      else (none, db)

/-- ChatConsumer.get_room_member_user_ids (consumers.py lines 224 to
235): the user ids of the Member rows in room.members; a missing room
or an exception yields the empty list. -/
def get_room_member_user_ids (db : DB) (roomId : Nat) : List Nat :=
  match db.rooms.find? (fun r => r.id == roomId) with
  | none => []
  | some room =>
    (room.memberIds.filterMap (fun mid => db.members.find? (fun m => m.id == mid))).map (·.userId)

/-- The error frame built throughout ChatConsumer.receive. -/
def errorFrame (msg : String) : Frame :=
  [("type", J.str "error"), ("message", J.str msg)]

/-- A parsed inbound websocket text payload: invalid JSON, valid JSON
that is not an object (attribute access on it raises, caught by the
generic handler), or a JSON object restricted to the keys the handler
reads. In obj, a field of some v means the key is present with value
v, none that it is absent. -/
inductive InFrame where
  | notJson : InFrame
  | nonObject : InFrame
  | obj : Option J → Option J → Option J → InFrame
deriving DecidableEq, Repr

/-- The observable effects of one ChatConsumer.receive call: frames
sent back on this socket, events published to the room group, events
published to user notification groups (in publish order), the database
after the call, and whether the handler closed the connection (it
never does). -/
structure RecvOut where
  replies : List Frame
  roomSends : List (GroupId × Frame)
  notifSends : List (GroupId × Frame)
  db : DB
  closed : Bool
deriving DecidableEq, Repr

/-- The hydrated broadcast_message dict of consumers.py lines 155 to
166: the stored byte blobs are re-encoded to base64 strings (lines
141 to 149) and the room field is int(self.room_id) (line 153). The
created_at rendering stands for datetime.isoformat. -/
def broadcastFrame (u : User) (roomIdStr : String) (msg : Message) : Frame :=
  [("type", J.str "message"),
   ("id", J.int msg.id),
   ("room", J.int (pyInt roomIdStr)),
   ("ciphertext", J.str (b64encode msg.bodyCiphertext)),
   ("iv", J.str (b64encode msg.iv)),
   ("sender", J.int msg.senderId),
   ("sender_email", J.str u.email),
   ("sender_username", J.str (get_user_display_name u)),
   ("sender_photo_url", match get_user_photo_url u with
                        | some p => J.str p
                        | none => J.null),
   ("created_at", J.str (toString msg.createdAt))]

/-- The notification_data dict of consumers.py lines 179 to 187: its
room_id field is self.room_id, the unconverted URL kwarg string. -/
def notificationFrame (u : User) (roomIdStr : String) (msg : Message) : Frame :=
  [("type", J.str "room_message"),
   ("room_id", J.str roomIdStr),
   ("message_id", J.int msg.id),
   ("sender", J.int msg.senderId),
   ("sender_email", J.str u.email),
   ("sender_username", J.str (get_user_display_name u)),
   ("created_at", J.str (toString msg.createdAt))]

/-- ChatConsumer.receive (consumers.py lines 90 to 210), for a
connection whose URL room id is roomIdStr and whose scope user is
user. Follows the source line by line: JSON parse, type dispatch with
default message, authentication check, truthiness check of ciphertext
and iv, save_message, then the hydrated room broadcast (lines 141 to
174) and the notification fan-out over get_room_member_user_ids
excluding the sender (lines 176 to 199). -/
def ChatConsumer.receive (db : DB) (user : ScopeUser) (roomIdStr : String)
    (inf : InFrame) : RecvOut :=
  match inf with
  | .notJson => ⟨[errorFrame "Invalid JSON"], [], [], db, false⟩
  | .nonObject => ⟨[errorFrame "Server error processing message"], [], [], db, false⟩
  | .obj ty ct iv =>
    if ty.getD (J.str "message") = J.str "message" then
      match user with
      | .auth u =>
        let ciphertext := ct.getD J.null
        let ivv := iv.getD J.null
        if ciphertext.truthy && ivv.truthy then
          match save_message db (pyInt roomIdStr) u ciphertext ivv with
          | (none, db2) =>
            ⟨[errorFrame "Failed to save message to database"], [], [], db2, false⟩
          | (some msg, db2) =>
            ⟨[],
             [(GroupId.room roomIdStr, broadcastFrame u roomIdStr msg)],
             ((get_room_member_user_ids db2 (pyInt roomIdStr)).filter
                (fun v => v != u.id)).map
               (fun v => (GroupId.userNotif v, notificationFrame u roomIdStr msg)),
             db2, false⟩
        else ⟨[errorFrame "Missing ciphertext or iv"], [], [], db, false⟩
      | _ => ⟨[errorFrame "Authentication required"], [], [], db, false⟩
    else ⟨[], [], [], db, false⟩

/-- Exceptions of the embedded Python code that escape to the caller. -/
inductive PyErr where
  | attributeError : PyErr
  | unicodeDecodeError : PyErr
  | keyError : PyErr
deriving DecidableEq, Repr

/-- The instance attributes a ChatConsumer can hold when the transport
disconnects: preGroupName when connect returned before line 23 (the
scope user was absent or anonymous, closed with 4001, or an exception
was raised earlier), and named r once self.room_group_name was
assigned from the URL room id r, whether or not the group was ever
joined. -/
inductive ChatConnAttrs where
  | preGroupName : ChatConnAttrs
  | named : String → ChatConnAttrs
deriving DecidableEq, Repr

/-- The consumer state connect leaves behind for a later disconnect,
per the assignment order of consumers.py lines 17 to 24. -/
def ChatConsumer.connectAttrs (user : ScopeUser) (roomIdStr : String) : ChatConnAttrs :=
  match user with
  | .auth _ => .named roomIdStr
  | _ => .preGroupName

/-- ChatConsumer.disconnect (consumers.py lines 82 to 88): it reads
self.room_group_name unconditionally, so it raises AttributeError
when connect returned before assigning it; otherwise it discards the
channel from the room group. -/
def ChatConsumer.disconnect : ChatConnAttrs → Except PyErr (List GroupId)
  | .preGroupName => .error .attributeError
  | .named r => .ok [GroupId.room r]

/-- UserNotificationConsumer.disconnect (consumers.py lines 328 to
334): guarded by hasattr, so it never raises; it discards the user
group when one was assigned. The input is the assigned user id, none
when connect was refused before the assignment. -/
def UserNotificationConsumer.disconnect : Option Nat → List GroupId
  | none => []
  | some uid => [GroupId.userNotif uid]

/-- UserNotificationConsumer.connect (consumers.py lines 294 to 316). -/
def UserNotificationConsumer.connect (user : ScopeUser) : ConnectOut :=
  match user with
  | .noneU => ⟨some 4001, false, []⟩
  | .anon => ⟨some 4001, false, []⟩
  | .auth u => ⟨none, true, [GroupId.userNotif u.id]⟩

/-- Strict UTF-8 decoding of a byte list, the semantics of Python
bytes.decode() on scope query_string (middleware.py line 22): rejects
stray continuation bytes, overlong forms, surrogates, code points
above 0x10FFFF and truncated sequences. Returns the decoded
characters. -/
def utf8Decode : List Nat → Option (List Char)
  | [] => some []
  | b :: bs =>
    if b < 128 then
      (utf8Decode bs).map (fun cs => Char.ofNat b :: cs)
    else if b < 194 then none
    else if b < 224 then
      match bs with
      | b2 :: bs2 =>
        if 128 ≤ b2 ∧ b2 < 192 then
          (utf8Decode bs2).map (fun cs => Char.ofNat ((b - 192) * 64 + (b2 - 128)) :: cs)
        else none
      | [] => none
    else if b < 240 then
      match bs with
      | b2 :: b3 :: bs3 =>
        if (128 ≤ b2 ∧ b2 < 192) ∧ (128 ≤ b3 ∧ b3 < 192) ∧
           (b = 224 → 160 ≤ b2) ∧ (b = 237 → b2 < 160) then
          (utf8Decode bs3).map
            (fun cs => Char.ofNat ((b - 224) * 4096 + (b2 - 128) * 64 + (b3 - 128)) :: cs)
        else none
      | _ => none
    else if b < 245 then
      match bs with
      | b2 :: b3 :: b4 :: bs4 =>
        if (128 ≤ b2 ∧ b2 < 192) ∧ (128 ≤ b3 ∧ b3 < 192) ∧ (128 ≤ b4 ∧ b4 < 192) ∧
           (b = 240 → 144 ≤ b2) ∧ (b = 244 → b2 < 144) then
          (utf8Decode bs4).map
            (fun cs => Char.ofNat ((b - 240) * 262144 + (b2 - 128) * 4096 +
                                   (b3 - 128) * 64 + (b4 - 128)) :: cs)
        else none
      | _ => none
    else none

/-- Split a character list on a separator character (the split on
ampersands inside urllib parse_qs). -/
def splitOnChar (sep : Char) : List Char → List (List Char)
  | [] => [[]]
  | c :: cs =>
    let rest := splitOnChar sep cs
    if c = sep then [] :: rest
    else
      match rest with
      | r :: rs => (c :: r) :: rs
      | [] => [[c]]

/-- Split a name=value pair at the first equals sign; none when the
part has no equals sign (urllib drops such parts). -/
def splitFirstEq : List Char → Option (List Char × List Char)
  | [] => none
  | c :: cs =>
    if c = '=' then some ([], cs)
    else (splitFirstEq cs).map (fun p => (c :: p.1, p.2))

/-- parse_qs(query).get(token, [None])[0] of middleware.py lines 23 to
24: the first non-blank value bound to the key token. Percent and
plus decoding of urllib are omitted: both are the identity on the JWT
character set, which is the only data this middleware extracts. -/
def parseTokenParam (cs : List Char) : Option String :=
  (((splitOnChar '&' cs).filterMap
      (fun part =>
        match splitFirstEq part with
        | some (name, val) =>
          if name = "token".data ∧ val ≠ [] then some val else none
        | none => none)).map (fun val => String.mk val)).head?

/-- The outcome of constructing rest_framework_simplejwt AccessToken
on a raw token string (third-party code, modelled as an oracle
parameter): invalid when construction raises TokenError or
InvalidToken (bad signature, expiry, malformed input), valid c when
the token verifies with c the value of its user_id claim, c = none
when the claim is absent from the payload. -/
inductive TokenValidation where
  | invalid : TokenValidation
  | valid : Option Nat → TokenValidation
deriving DecidableEq, Repr

/-- JWTAuthMiddleware resolving scope user (middleware.py lines 20 to
56), with the AccessToken constructor abstracted as validate. The
except clause catches only TokenError, InvalidToken and
User.DoesNotExist: the UnicodeDecodeError of query_string.decode()
and the KeyError of the subscript access_token[user_id] escape.
get_user itself catches DoesNotExist and returns None, so a missing
user row leaves scope user None. -/
def JWTAuthMiddleware.call (validate : String → TokenValidation) (db : DB)
    (queryString : List Nat) : Except PyErr ScopeUser :=
  match utf8Decode queryString with
  | none => .error .unicodeDecodeError
  | some chars =>
    match parseTokenParam chars with
    | none => .ok .anon
    | some tok =>
      match validate tok with
      | .invalid => .ok .anon
      | .valid none => .error .keyError
      | .valid (some uid) =>
        match db.users.find? (fun u => u.id == uid) with
        | some u => .ok (.auth u)
        | none => .ok .noneU

/-- One event of the send pipeline interleaving model: an entry is a
pair of the sending connection id and the message id. -/
structure SimState where
  pending : List (Nat × Nat)
  dbLog : List (Nat × Nat)
  chanLog : List (Nat × Nat)
deriving DecidableEq, Repr

/-- The two suspension-separated halves of one send in
ChatConsumer.receive: startSend c m is the persistence await (lines
119 to 124) finishing its database write, so the new row is appended
to the store order; finishSend c is the subsequent group_send await
(lines 168 to 174) publishing the saved message of connection c to
the room channel. A connection is sequential (its handler runs one
frame to completion before the next), so startSend is refused while
the same connection has an unpublished save, and message ids are
fresh (primary key). Between the two awaits of one connection the
event loop may run any other connection. -/
inductive SimAct where
  | startSend : Nat → Nat → SimAct
  | finishSend : Nat → SimAct
deriving DecidableEq, Repr

/-- One interleaving step of the room send pipeline. -/
def simStep (s : SimState) (a : SimAct) : Option SimState :=
  match a with
  | .startSend c m =>
    if (s.pending.lookup c).isSome then none
    else if m ∈ s.dbLog.map (·.2) then none
    else some ⟨(c, m) :: s.pending, s.dbLog ++ [(c, m)], s.chanLog⟩
  | .finishSend c =>
    match s.pending.lookup c with
    | some m => some ⟨s.pending.filter (fun e => e.1 ≠ c), s.dbLog, s.chanLog ++ [(c, m)]⟩
    | none => none

/-- Run a list of interleaving steps. -/
def simExec (s : SimState) : List SimAct → Option SimState
  | [] => some s
  | a :: rest =>
    match simStep s a with
    | none => none
    | some s2 => simExec s2 rest

/-- The state of a freshly opened room with no in-flight sends. -/
def simInit : SimState := ⟨[], [], []⟩

/-- Message a occurs before message b in an event log: a b-entry
follows the first a-entry. -/
def beforeMsg (l : List (Nat × Nat)) (a b : Nat) : Bool :=
  match l with
  | [] => false
  | x :: rest => if x.2 == a then rest.any (fun y => y.2 == b) else beforeMsg rest a b

/-- A user of the worked examples: user id 3 in family 1. -/
def demoUser : User := ⟨3, "alice@example.com", some "Alice", false⟩

/-- A second user of the worked examples: user id 4 in family 1. -/
def demoUser2 : User := ⟨4, "bob@example.com", none, false⟩

/-- A database snapshot with one family (id 1), two members (member 2
for user 3, member 5 for user 4) and one room (id 7) whose member set
is both of them. -/
def demoDb : DB :=
  { users := [demoUser, demoUser2],
    members := [⟨2, 1, 3⟩, ⟨5, 1, 4⟩],
    rooms := [⟨7, 1, [2, 5]⟩],
    messages := [],
    nextMessageId := 1 }

/-- demoDb after user 3 was removed from family 1 (the membership-race
state of spec scenario B). -/
def demoDbRace : DB := { demoDb with members := [⟨5, 1, 4⟩] }

/-- demoDb with room 7 deleted (a generic persistence failure). -/
def demoDbNoRoom : DB := { demoDb with rooms := [] }

/-- The inbound frame of spec scenario A. -/
def demoSend : InFrame := .obj none (some (J.str "Zm9v")) (some (J.str "MTI="))

/-- A failed save_message leaves the database unchanged: every failure
arm of the source returns None without having created a row. -/
theorem save_message_none (db : DB) (roomId : Nat) (u : User) (ciphertext iv : J)
    (h : (save_message db roomId u ciphertext iv).1 = none) :
    save_message db roomId u ciphertext iv = (none, db) := by
  unfold save_message at h ⊢
  repeat first
  | rfl
  | (split at h <;> try rfl)
  | simp_all

/-- A successful save_message appends exactly the returned row, whose
payload bytes are the base64 decodings of the submitted strings, and
touches no other table. -/
theorem save_message_some (db db2 : DB) (roomId : Nat) (u : User) (ciphertext iv : J)
    (msg : Message)
    (h : save_message db roomId u ciphertext iv = (some msg, db2)) :
    db2.rooms = db.rooms ∧ db2.members = db.members ∧ db2.users = db.users ∧
    db2.messages = db.messages ++ [msg] ∧
    ∃ cs ivs, ciphertext = J.str cs ∧ iv = J.str ivs ∧
      b64decodeStr cs = some msg.bodyCiphertext ∧
      b64decodeStr ivs = some msg.iv := by
  unfold save_message at h
  repeat split at h <;> try simp at h
  obtain ⟨h1, h2⟩ := h
  subst h1
  subst h2
  exact ⟨rfl, rfl, rfl, rfl, _, _, rfl, rfl, by simp_all, by simp_all⟩

/-- Unfolding of receive on a message frame whose save_message fails:
the handler sends the generic failure frame and returns (consumers.py
lines 126 to 133). -/
theorem receive_save_none (db db2 : DB) (u : User) (roomIdStr : String)
    (ty ct iv : Option J)
    (hty : ty.getD (J.str "message") = J.str "message")
    (hct : (ct.getD J.null).truthy = true)
    (hiv : (iv.getD J.null).truthy = true)
    (hsave : save_message db (pyInt roomIdStr) u (ct.getD J.null) (iv.getD J.null) =
      (none, db2)) :
    ChatConsumer.receive db (.auth u) roomIdStr (.obj ty ct iv) =
      ⟨[errorFrame "Failed to save message to database"], [], [], db2, false⟩ := by
  simp only [ChatConsumer.receive, hty, hct, hiv, Bool.and_self, if_true, hsave]

/-- Unfolding of receive on a message frame whose save_message
succeeds: the broadcast to the room group and the notification
fan-out of consumers.py lines 151 to 199. -/
theorem receive_save_some (db db2 : DB) (u : User) (roomIdStr : String)
    (ty ct iv : Option J) (msg : Message)
    (hty : ty.getD (J.str "message") = J.str "message")
    (hct : (ct.getD J.null).truthy = true)
    (hiv : (iv.getD J.null).truthy = true)
    (hsave : save_message db (pyInt roomIdStr) u (ct.getD J.null) (iv.getD J.null) =
      (some msg, db2)) :
    ChatConsumer.receive db (.auth u) roomIdStr (.obj ty ct iv) =
      ⟨[],
       [(GroupId.room roomIdStr, broadcastFrame u roomIdStr msg)],
       ((get_room_member_user_ids db2 (pyInt roomIdStr)).filter (fun v => v != u.id)).map
         (fun v => (GroupId.userNotif v, notificationFrame u roomIdStr msg)),
       db2, false⟩ := by
  simp only [ChatConsumer.receive, hty, hct, hiv, Bool.and_self, if_true, hsave]

/-- Recognizer for integer JSON values. -/
def J.isInt : J → Bool
  | .int _ => true
  | _ => false

/-- The successful send of spec scenario A executed on demoDb. -/
def demoRecv : RecvOut := ChatConsumer.receive demoDb (.auth demoUser) "7" demoSend

/-- The send of a non-canonical base64 ciphertext executed on demoDb. -/
def demoRecvBad : RecvOut :=
  ChatConsumer.receive demoDb (.auth demoUser) "7"
    (.obj none (some (J.str "MTJ=")) (some (J.str "MTI=")))

/-- C6: for every inbound send frame whose persistence fails (the
store returns no message, for any reason), the sender receives a
generic error frame and nothing is published to the Room Channel or
to any User Notification Channel; no partial broadcast is sent, the
database is unchanged and the connection stays open. -/
theorem chat_c6_persistence_failure_generic (db : DB) (u : User) (roomIdStr : String)
    (ty ct iv : Option J)
    (hty : ty.getD (J.str "message") = J.str "message")
    (hct : (ct.getD J.null).truthy = true)
    (hiv : (iv.getD J.null).truthy = true)
    (hfail : (save_message db (pyInt roomIdStr) u (ct.getD J.null) (iv.getD J.null)).1 =
      none) :
    ChatConsumer.receive db (.auth u) roomIdStr (.obj ty ct iv) =
      ⟨[errorFrame "Failed to save message to database"], [], [], db, false⟩ :=
  receive_save_none db db u roomIdStr ty ct iv hty hct hiv
    (save_message_none db (pyInt roomIdStr) u (ct.getD J.null) (iv.getD J.null) hfail)

/-- Witness for C6 at a concrete state: the target room was deleted,
so the save fails and the sender gets the generic error frame. -/
theorem chat_c6_persistence_failure_generic_witness :
    ChatConsumer.receive demoDbNoRoom (.auth demoUser) "7" demoSend =
      ⟨[errorFrame "Failed to save message to database"], [], [], demoDbNoRoom, false⟩ :=
  chat_c6_persistence_failure_generic demoDbNoRoom demoUser "7" none
    (some (J.str "Zm9v")) (some (J.str "MTI=")) (by decide) (by decide) (by decide)
    (by decide)

/-- C10: a well-formed JSON object frame whose type field is present
and differs from the string message produces no observable effect: no
reply, no persistence, no publish, connection open. -/
theorem chat_c10_unknown_type_ignored (db : DB) (user : ScopeUser) (roomIdStr : String)
    (v : J) (ct iv : Option J) (hv : v ≠ J.str "message") :
    ChatConsumer.receive db user roomIdStr (.obj (some v) ct iv) =
      ⟨[], [], [], db, false⟩ := by
  simp only [ChatConsumer.receive, Option.getD_some]
  rw [if_neg hv]

/-- Witness for C10 at a concrete frame of type typing. -/
theorem chat_c10_unknown_type_ignored_witness :
    ChatConsumer.receive demoDb (.auth demoUser) "7"
      (.obj (some (J.str "typing")) none none) = ⟨[], [], [], demoDb, false⟩ :=
  chat_c10_unknown_type_ignored demoDb (.auth demoUser) "7" (J.str "typing") none none
    (by decide)

/-- C5 counterexample: a send rejected by the membership race (user 3
was removed from family 1 after connecting) produces exactly the same
store result shape (None) and exactly the same client-visible error
frame as a generic persistence failure (room deleted), so no specific
NotAMember error distinct from generic failures is returned and the
client cannot distinguish the two cases. -/
theorem chat_c5_counterexample :
    save_message demoDbRace 7 demoUser (J.str "Zm9v") (J.str "MTI=") = (none, demoDbRace) ∧
    save_message demoDbNoRoom 7 demoUser (J.str "Zm9v") (J.str "MTI=") =
      (none, demoDbNoRoom) ∧
    ChatConsumer.receive demoDbRace (.auth demoUser) "7" demoSend =
      ⟨[errorFrame "Failed to save message to database"], [], [], demoDbRace, false⟩ ∧
    ChatConsumer.receive demoDbNoRoom (.auth demoUser) "7" demoSend =
      ⟨[errorFrame "Failed to save message to database"], [], [], demoDbNoRoom, false⟩ ∧
    (ChatConsumer.receive demoDbRace (.auth demoUser) "7" demoSend).replies =
      (ChatConsumer.receive demoDbNoRoom (.auth demoUser) "7" demoSend).replies :=
  ⟨by decide, by decide, by decide, by decide, by decide⟩

/-- C5 amended: when the sender is no longer a current member of the
target room or tenant at persistence time, the store returns None
(the same value as every generic failure), the caller replies with
the same generic error frame, no Message row is created, and the
connection remains open; the membership violation is distinguished
only in server-side logging. -/
theorem chat_c5_membership_race_rejection (db : DB) (u : User) (roomIdStr : String)
    (ty ct iv : Option J) (room : ChatRoom)
    (hty : ty.getD (J.str "message") = J.str "message")
    (hct : (ct.getD J.null).truthy = true)
    (hiv : (iv.getD J.null).truthy = true)
    (hroom : db.rooms.find? (fun r => r.id == pyInt roomIdStr) = some room)
    (hviol : ∀ m ∈ db.members, m.userId = u.id → m.familyId = room.familyId →
      m.id ∉ room.memberIds) :
    save_message db (pyInt roomIdStr) u (ct.getD J.null) (iv.getD J.null) = (none, db) ∧
    ChatConsumer.receive db (.auth u) roomIdStr (.obj ty ct iv) =
      ⟨[errorFrame "Failed to save message to database"], [], [], db, false⟩ := by
  have hsave : save_message db (pyInt roomIdStr) u (ct.getD J.null) (iv.getD J.null) =
      (none, db) := by
    rcases hm : db.members.find?
        (fun m => m.userId == u.id && m.familyId == room.familyId) with _ | member
    · simp [save_message, hroom, hm]
    · have h1 : member.userId = u.id ∧ member.familyId = room.familyId := by
        have h2 := List.find?_some hm
        simpa using h2
      have hnot := hviol member (List.mem_of_find?_eq_some hm) h1.1 h1.2
      simp [save_message, hroom, hm, hnot]
  exact ⟨hsave, receive_save_none db db u roomIdStr ty ct iv hty hct hiv hsave⟩

/-- Witness for C5 amended at the scenario B state demoDbRace. -/
theorem chat_c5_membership_race_rejection_witness :
    save_message demoDbRace (pyInt "7") demoUser
        ((some (J.str "Zm9v")).getD J.null) ((some (J.str "MTI=")).getD J.null) =
      (none, demoDbRace) ∧
    ChatConsumer.receive demoDbRace (.auth demoUser) "7"
        (.obj none (some (J.str "Zm9v")) (some (J.str "MTI="))) =
      ⟨[errorFrame "Failed to save message to database"], [], [], demoDbRace, false⟩ :=
  chat_c5_membership_race_rejection demoDbRace demoUser "7" none
    (some (J.str "Zm9v")) (some (J.str "MTI=")) ⟨7, 1, [2, 5]⟩
    (by decide) (by decide) (by decide) (by decide) (by decide)

/-- C9: evaluation of the disconnect handlers over every reachable
attribute state. ChatConsumer.disconnect raises AttributeError when
the connection was refused before self.room_group_name was assigned
(the claim requires it to run without error in every state), while in
every named state it discards the room group, and the guarded
UserNotificationConsumer.disconnect never raises. -/
theorem chat_c9_disconnect_unguarded :
    ChatConsumer.disconnect (ChatConsumer.connectAttrs .anon "7") =
      .error .attributeError ∧
    ChatConsumer.disconnect (ChatConsumer.connectAttrs .noneU "7") =
      .error .attributeError ∧
    (∀ r : String, ChatConsumer.disconnect (.named r) = .ok [GroupId.room r]) ∧
    (∀ uid : Nat, UserNotificationConsumer.disconnect (some uid) =
      [GroupId.userNotif uid]) ∧
    UserNotificationConsumer.disconnect none = [] :=
  ⟨rfl, rfl, fun _ => rfl, fun _ => rfl, rfl⟩

/-- C8 counterexample: in the run of spec scenario A, the published
notification frame carries room_id as the JSON string 7, not an
integer, while the corresponding room broadcast frame carries the
integer 7 in its room field. -/
theorem chat_c8_counterexample :
    demoRecv.notifSends.map (fun p => fget p.2 "room_id") = [some (J.str "7")] ∧
    demoRecv.notifSends.map (fun p => (fget p.2 "room_id").map J.isInt) = [some false] ∧
    demoRecv.roomSends.map (fun p => fget p.2 "room") = [some (J.int 7)] :=
  ⟨by decide, by decide, by decide⟩

/-- C8 amended: every notification frame published after a successful
send has exactly the shape type room_message, room_id, message_id,
sender, sender_email, sender_username, created_at, with integer
message_id and sender, string email, username and created_at, but
with room_id the string room id taken from the URL route, not an
integer, whereas the room broadcast frame of the same send carries
the integer room id in its room field. -/
theorem chat_c8_notification_shape (db db2 : DB) (u : User) (roomIdStr : String)
    (ty ct iv : Option J) (msg : Message)
    (hty : ty.getD (J.str "message") = J.str "message")
    (hct : (ct.getD J.null).truthy = true)
    (hiv : (iv.getD J.null).truthy = true)
    (hsave : save_message db (pyInt roomIdStr) u (ct.getD J.null) (iv.getD J.null) =
      (some msg, db2)) :
    (∀ p ∈ (ChatConsumer.receive db (.auth u) roomIdStr (.obj ty ct iv)).notifSends,
      p.2 = notificationFrame u roomIdStr msg ∧
      fget p.2 "type" = some (J.str "room_message") ∧
      fget p.2 "room_id" = some (J.str roomIdStr) ∧
      fget p.2 "message_id" = some (J.int msg.id) ∧
      fget p.2 "sender" = some (J.int msg.senderId) ∧
      fget p.2 "sender_email" = some (J.str u.email) ∧
      fget p.2 "sender_username" = some (J.str (get_user_display_name u)) ∧
      fget p.2 "created_at" = some (J.str (toString msg.createdAt))) ∧
    (ChatConsumer.receive db (.auth u) roomIdStr (.obj ty ct iv)).roomSends.map
      (fun p => fget p.2 "room") = [some (J.int (pyInt roomIdStr))] := by
  rw [receive_save_some db db2 u roomIdStr ty ct iv msg hty hct hiv hsave]
  constructor
  · intro p hp
    simp only [List.mem_map] at hp
    obtain ⟨v, _, hpe⟩ := hp
    subst hpe
    exact ⟨rfl, rfl, rfl, rfl, rfl, rfl, rfl, rfl⟩
  · rfl

/-- Witness for C8 amended at the scenario A run on demoDb. -/
theorem chat_c8_notification_shape_witness :
    (∀ p ∈ (ChatConsumer.receive demoDb (.auth demoUser) "7"
        (.obj none (some (J.str "Zm9v")) (some (J.str "MTI=")))).notifSends,
      p.2 = notificationFrame demoUser "7" ⟨1, 7, 2, [102, 111, 111], [49, 50], 1⟩ ∧
      fget p.2 "type" = some (J.str "room_message") ∧
      fget p.2 "room_id" = some (J.str "7") ∧
      fget p.2 "message_id" = some (J.int 1) ∧
      fget p.2 "sender" = some (J.int 2) ∧
      fget p.2 "sender_email" = some (J.str "alice@example.com") ∧
      fget p.2 "sender_username" = some (J.str (get_user_display_name demoUser)) ∧
      fget p.2 "created_at" = some (J.str (toString 1))) ∧
    (ChatConsumer.receive demoDb (.auth demoUser) "7"
        (.obj none (some (J.str "Zm9v")) (some (J.str "MTI=")))).roomSends.map
      (fun p => fget p.2 "room") = [some (J.int (pyInt "7"))] :=
  chat_c8_notification_shape demoDb
    { demoDb with messages := [⟨1, 7, 2, [102, 111, 111], [49, 50], 1⟩],
                  nextMessageId := 2 }
    demoUser "7" none (some (J.str "Zm9v")) (some (J.str "MTI="))
    ⟨1, 7, 2, [102, 111, 111], [49, 50], 1⟩
    (by decide) (by decide) (by decide) (by decide)

/-- C3 counterexample: the non-canonical base64 string MTJ= is
accepted by the core (the send is persisted and broadcast), but the
ciphertext string in the broadcast frame is MTI=, not the submitted
string: the claimed round-trip fails for an accepted base64 input. -/
theorem chat_c3_counterexample :
    demoRecvBad.roomSends.map (fun p => fget p.2 "ciphertext") = [some (J.str "MTI=")] ∧
    demoRecvBad.roomSends.length = 1 ∧
    ("MTI=" : String) ≠ "MTJ=" :=
  ⟨by decide, by decide, by decide⟩

/-- C4: check_room_access is true exactly when the room exists and
the user has a Member row in the owning family (the room member list
is not consulted), and an authenticated principal failing the check
is closed with the distinct code 4003, never accepted, joins no
group, and is relayed no published frame. -/
theorem chat_c4_room_access_guard (db : DB) (hids : (db.rooms.map (·.id)).Nodup)
    (u : User) (roomIdStr : String) :
    (∀ uid rid : Nat,
      check_room_access db uid rid = true ↔
        ∃ r ∈ db.rooms, r.id = rid ∧
          ∃ m ∈ db.members, m.familyId = r.familyId ∧ m.userId = uid) ∧
    (check_room_access db u.id (pyInt roomIdStr) = false →
      ChatConsumer.connect db (.auth u) roomIdStr = ⟨some 4003, false, []⟩ ∧
      ∀ published : List (GroupId × Frame),
        deliveredTo (ChatConsumer.connect db (.auth u) roomIdStr).joinedGroups
          published = []) := by
  constructor
  · intro uid rid
    rcases hf : db.rooms.find? (fun r => r.id == rid) with _ | room
    · simp only [check_room_access, hf]
      constructor
      · intro hfalse
        exact absurd hfalse (by simp)
      · rintro ⟨r, hr, hrid, -⟩
        have hs : (db.rooms.find? (fun r => r.id == rid)).isSome :=
          List.find?_isSome.mpr ⟨r, hr, by simp [hrid]⟩
        rw [hf] at hs
        simp at hs
    · have hmem := List.mem_of_find?_eq_some hf
      have hid : room.id = rid := by
        have h2 := List.find?_some hf
        simpa using h2
      simp only [check_room_access, hf, List.any_eq_true]
      constructor
      · rintro ⟨m, hm, hpred⟩
        simp only [Bool.and_eq_true, beq_iff_eq] at hpred
        exact ⟨room, hmem, hid, m, hm, hpred.1, hpred.2⟩
      · rintro ⟨r, hr, hrid, m, hm, hfam, huid⟩
        have hreq : r = room :=
          List.inj_on_of_nodup_map hids hr hmem (by rw [hid, hrid])
        subst hreq
        exact ⟨m, hm, by simp [hfam, huid]⟩
  · intro hfalse
    have hc : ChatConsumer.connect db (.auth u) roomIdStr = ⟨some 4003, false, []⟩ := by
      simp [ChatConsumer.connect, hfalse]
    refine ⟨hc, fun published => ?_⟩
    rw [hc]
    simp [deliveredTo]

/-- Witness for C4 at demoDb: the guard equivalence at arbitrary ids
and the refusal of a user with no membership anywhere. -/
theorem chat_c4_room_access_guard_witness :
    (∀ uid rid : Nat,
      check_room_access demoDb uid rid = true ↔
        ∃ r ∈ demoDb.rooms, r.id = rid ∧
          ∃ m ∈ demoDb.members, m.familyId = r.familyId ∧ m.userId = uid) ∧
    (check_room_access demoDb 99 (pyInt "7") = false →
      ChatConsumer.connect demoDb (.auth ⟨99, "eve@example.com", none, false⟩) "7" =
        ⟨some 4003, false, []⟩ ∧
      ∀ published : List (GroupId × Frame),
        deliveredTo (ChatConsumer.connect demoDb
          (.auth ⟨99, "eve@example.com", none, false⟩) "7").joinedGroups
          published = []) :=
  chat_c4_room_access_guard demoDb (by decide) ⟨99, "eve@example.com", none, false⟩ "7"

/-- C7 counterexample: the bearer auth resolver does raise on some
handshake inputs. A query string that is not valid UTF-8 (the single
byte 255) makes query_string.decode() raise UnicodeDecodeError, and a
token that validates but lacks the user_id claim makes the subscript
access_token access raise KeyError; neither exception is in the
except clause of the middleware, so neither degrades to Anonymous and
the connection is not refused with the unauthenticated close code. -/
theorem chat_c7_counterexample :
    JWTAuthMiddleware.call (fun _ => .invalid) demoDb [255] =
      .error .unicodeDecodeError ∧
    JWTAuthMiddleware.call (fun _ => .valid none) demoDb
        ("token=x".data.map Char.toNat) =
      .error .keyError :=
  ⟨rfl, rfl⟩

/-- C7 amended: for every handshake whose query string is valid UTF-8
and whose credential, when it validates at all, carries the user_id
claim, the resolver never raises: it returns either an authenticated
principal or an anonymous or None scope user, and in the latter two
cases both connect handlers uniformly refuse the connection with the
unauthenticated close code 4001 without accepting or joining. -/
theorem chat_c7_resolver_degrades (validate : String → TokenValidation) (db : DB)
    (q : List Nat)
    (hq : (utf8Decode q).isSome = true)
    (hclaim : ∀ t, validate t ≠ .valid none) :
    ∃ su : ScopeUser, JWTAuthMiddleware.call validate db q = .ok su ∧
      ((∃ uu : User, su = .auth uu) ∨
        ((∀ db2 : DB, ∀ roomIdStr : String,
            ChatConsumer.connect db2 su roomIdStr = ⟨some 4001, false, []⟩) ∧
          UserNotificationConsumer.connect su = ⟨some 4001, false, []⟩)) := by
  rcases hdec : utf8Decode q with _ | chars
  · rw [hdec] at hq
    simp at hq
  rcases htok : parseTokenParam chars with _ | tok
  · refine ⟨.anon, ?_, Or.inr ⟨fun db2 r => rfl, rfl⟩⟩
    simp [JWTAuthMiddleware.call, hdec, htok]
  rcases hval : validate tok with _ | uidc
  · refine ⟨.anon, ?_, Or.inr ⟨fun db2 r => rfl, rfl⟩⟩
    simp [JWTAuthMiddleware.call, hdec, htok, hval]
  rcases uidc with _ | uid
  · exact absurd hval (hclaim tok)
  rcases hu : db.users.find? (fun w => w.id == uid) with _ | uu
  · refine ⟨.noneU, ?_, Or.inr ⟨fun db2 r => rfl, rfl⟩⟩
    simp [JWTAuthMiddleware.call, hdec, htok, hval, hu]
  · refine ⟨.auth uu, ?_, Or.inl ⟨uu, rfl⟩⟩
    simp [JWTAuthMiddleware.call, hdec, htok, hval, hu]

/-- Witness for C7 amended: a well-formed query with a token that
fails validation resolves to Anonymous and is refused with 4001. -/
theorem chat_c7_resolver_degrades_witness :
    (utf8Decode ("token=abc".data.map Char.toNat)).isSome = true ∧
    ∃ su : ScopeUser,
      JWTAuthMiddleware.call (fun _ => .invalid) demoDb
          ("token=abc".data.map Char.toNat) = .ok su ∧
      ((∃ uu : User, su = .auth uu) ∨
        ((∀ db2 : DB, ∀ roomIdStr : String,
            ChatConsumer.connect db2 su roomIdStr = ⟨some 4001, false, []⟩) ∧
          UserNotificationConsumer.connect su = ⟨some 4001, false, []⟩)) :=
  ⟨by decide,
   chat_c7_resolver_degrades (fun _ => .invalid) demoDb
     ("token=abc".data.map Char.toNat) (by decide)
     (fun t h => TokenValidation.noConfusion h)⟩

/-- No alphabet character is the padding character. -/
theorem b64Char_ne_pad : ∀ v : Nat, v < 64 → ¬(b64Char v = '=') := by decide

/-- The decode table inverts the encode table on the alphabet. -/
theorem b64Index_b64Char : ∀ v : Nat, v < 64 → b64Index (b64Char v) = some v := by decide

/-- Decoding step on an alphabet character at quad position 0. -/
theorem a2b_step0 (v : Nat) (hv : v < 64) (cs : List Char) (pads leftover : Nat)
    (out : List Nat) :
    a2bBase64 (b64Char v :: cs) 0 pads leftover out = a2bBase64 cs 1 pads v out := by
  simp only [a2bBase64, if_neg (b64Char_ne_pad v hv), b64Index_b64Char v hv]

/-- Decoding step on an alphabet character at quad position 1. -/
theorem a2b_step1 (v : Nat) (hv : v < 64) (cs : List Char) (pads leftover : Nat)
    (out : List Nat) :
    a2bBase64 (b64Char v :: cs) 1 pads leftover out =
      a2bBase64 cs 2 pads (v % 16) (out ++ [leftover * 4 + v / 16]) := by
  simp only [a2bBase64, if_neg (b64Char_ne_pad v hv), b64Index_b64Char v hv]

/-- Decoding step on an alphabet character at quad position 2. -/
theorem a2b_step2 (v : Nat) (hv : v < 64) (cs : List Char) (pads leftover : Nat)
    (out : List Nat) :
    a2bBase64 (b64Char v :: cs) 2 pads leftover out =
      a2bBase64 cs 3 pads (v % 4) (out ++ [leftover * 16 + v / 4]) := by
  simp only [a2bBase64, if_neg (b64Char_ne_pad v hv), b64Index_b64Char v hv]

/-- Decoding step on an alphabet character at quad position 3. -/
theorem a2b_step3 (v : Nat) (hv : v < 64) (cs : List Char) (pads leftover : Nat)
    (out : List Nat) :
    a2bBase64 (b64Char v :: cs) 3 pads leftover out =
      a2bBase64 cs 0 pads 0 (out ++ [leftover * 64 + v]) := by
  simp only [a2bBase64, if_neg (b64Char_ne_pad v hv), b64Index_b64Char v hv]

/-- A double pad closing a quad of two data characters ends the
decode. -/
theorem a2b_pad_pad (leftover : Nat) (out : List Nat) :
    a2bBase64 ['=', '='] 2 0 leftover out = some out := rfl

/-- A single pad closing a quad of three data characters ends the
decode. -/
theorem a2b_pad_done (leftover : Nat) (out : List Nat) :
    a2bBase64 ['='] 3 0 leftover out = some out := rfl

/-- Decoding the encoding of a byte list appends exactly that list to
the accumulator. -/
theorem a2b_encode (bs : List Nat) (hb : ∀ x ∈ bs, x < 256) :
    ∀ out : List Nat, a2bBase64 (b64encodeBytes bs) 0 0 0 out = some (out ++ bs) := by
  induction bs using b64encodeBytes.induct with
  | case1 =>
    intro out
    simp [b64encodeBytes, a2bBase64]
  | case2 a =>
    intro out
    have ha : a < 256 := hb a (by simp)
    simp only [b64encodeBytes]
    rw [a2b_step0 _ (by omega), a2b_step1 _ (by omega), a2b_pad_pad]
    have he : a / 4 % 64 * 4 + a % 4 * 16 / 16 = a := by omega
    rw [he]
  | case3 a b =>
    intro out
    have ha : a < 256 := hb a (by simp)
    have hb2 : b < 256 := hb b (by simp)
    simp only [b64encodeBytes]
    rw [a2b_step0 _ (by omega), a2b_step1 _ (by omega), a2b_step2 _ (by omega),
        a2b_pad_done]
    have he1 : a / 4 % 64 * 4 + (a % 4 * 16 + b / 16 % 16) / 16 = a := by omega
    have he2 : (a % 4 * 16 + b / 16 % 16) % 16 * 16 + b % 16 * 4 / 4 = b := by omega
    rw [he1, he2]
    simp
  | case4 a b c rest ih =>
    intro out
    have ha : a < 256 := hb a (by simp)
    have hb2 : b < 256 := hb b (by simp)
    have hc : c < 256 := hb c (by simp)
    have hrest : ∀ x ∈ rest, x < 256 := fun x hx => hb x (by simp [hx])
    simp only [b64encodeBytes]
    rw [a2b_step0 _ (by omega), a2b_step1 _ (by omega), a2b_step2 _ (by omega),
        a2b_step3 _ (by omega)]
    have he1 : a / 4 % 64 * 4 + (a % 4 * 16 + b / 16 % 16) / 16 = a := by omega
    have he2 : (a % 4 * 16 + b / 16 % 16) % 16 * 16 + (b % 16 * 4 + c / 64 % 4) / 4 = b := by
      omega
    have he3 : (b % 16 * 4 + c / 64 % 4) % 4 * 64 + c % 64 = c := by omega
    rw [he1, he2, he3, ih hrest]
    simp

/-- Round trip: decoding the base64 encoding of a byte string returns
exactly that byte string. -/
theorem b64decode_encode (bs : List Nat) (hb : ∀ x ∈ bs, x < 256) :
    b64decodeStr (b64encode bs) = some bs := by
  have h := a2b_encode bs hb []
  simpa [b64decodeStr, b64encode] using h

/-- The base64 encoding of a nonempty byte string is nonempty. -/
theorem b64encode_ne_empty (bs : List Nat) (h : bs ≠ []) : b64encode bs ≠ "" := by
  cases bs with
  | nil => exact absurd rfl h
  | cons a t =>
    cases t with
    | nil => simp [b64encode, b64encodeBytes, String.ext_iff]
    | cons b t2 =>
      cases t2 <;> simp [b64encode, b64encodeBytes, String.ext_iff]

/-- C3 amended: for every send whose ciphertext and iv are canonical
base64 strings (encodings of byte strings) and which is accepted and
broadcast, the ciphertext and iv strings in the room-broadcast frame
are character-identical to the submitted strings; for non-canonical
accepted inputs the relayed string is the re-encoding of the decoded
bytes and may differ. -/
theorem chat_c3_roundtrip_canonical (db db2 : DB) (u : User) (roomIdStr : String)
    (bs ivb : List Nat) (msg : Message)
    (hbs : ∀ x ∈ bs, x < 256) (hivb : ∀ x ∈ ivb, x < 256)
    (hbs0 : bs ≠ []) (hivb0 : ivb ≠ [])
    (hsave : save_message db (pyInt roomIdStr) u (J.str (b64encode bs))
        (J.str (b64encode ivb)) = (some msg, db2)) :
    (ChatConsumer.receive db (.auth u) roomIdStr
        (.obj none (some (J.str (b64encode bs)))
          (some (J.str (b64encode ivb))))).roomSends.map
      (fun p => (fget p.2 "ciphertext", fget p.2 "iv")) =
      [(some (J.str (b64encode bs)), some (J.str (b64encode ivb)))] := by
  have hct : ((some (J.str (b64encode bs))).getD J.null).truthy = true := by
    simp [J.truthy, b64encode_ne_empty bs hbs0]
  have hiv : ((some (J.str (b64encode ivb))).getD J.null).truthy = true := by
    simp [J.truthy, b64encode_ne_empty ivb hivb0]
  have hsave2 : save_message db (pyInt roomIdStr) u
      ((some (J.str (b64encode bs))).getD J.null)
      ((some (J.str (b64encode ivb))).getD J.null) = (some msg, db2) := by
    simpa using hsave
  obtain ⟨-, -, -, -, cs, ivs, hcs, hivs, hdec1, hdec2⟩ :=
    save_message_some db db2 (pyInt roomIdStr) u _ _ msg hsave
  have hcs2 : cs = b64encode bs := by
    injection hcs with h2
    exact h2.symm
  have hivs2 : ivs = b64encode ivb := by
    injection hivs with h2
    exact h2.symm
  subst hcs2
  subst hivs2
  have hb1 : msg.bodyCiphertext = bs := by
    have h3 := b64decode_encode bs hbs
    rw [hdec1] at h3
    exact Option.some.inj h3
  have hb2 : msg.iv = ivb := by
    have h3 := b64decode_encode ivb hivb
    rw [hdec2] at h3
    exact Option.some.inj h3
  rw [receive_save_some db db2 u roomIdStr none
      (some (J.str (b64encode bs))) (some (J.str (b64encode ivb))) msg rfl hct hiv hsave2]
  simp [broadcastFrame, fget, List.find?, hb1, hb2]

/-- Witness for C3 amended at spec scenario A: ciphertext Zm9v and iv
MTI= are relayed character-identical. -/
theorem chat_c3_roundtrip_canonical_witness :
    (ChatConsumer.receive demoDb (.auth demoUser) "7"
        (.obj none (some (J.str (b64encode [102, 111, 111])))
          (some (J.str (b64encode [49, 50]))))).roomSends.map
      (fun p => (fget p.2 "ciphertext", fget p.2 "iv")) =
      [(some (J.str (b64encode [102, 111, 111])), some (J.str (b64encode [49, 50])))] :=
  chat_c3_roundtrip_canonical demoDb
    { demoDb with messages := [⟨1, 7, 2, [102, 111, 111], [49, 50], 1⟩],
                  nextMessageId := 2 }
    demoUser "7" [102, 111, 111] [49, 50] ⟨1, 7, 2, [102, 111, 111], [49, 50], 1⟩
    (by decide) (by decide) (by decide) (by decide) (by decide)

/-- Counting notification events: the fan-out loop publishes to the
group of user v once per occurrence of v in the iterated id list. -/
theorem fanout_count (l : List Nat) (v : Nat) (d : Frame) :
    ((l.map (fun w => (GroupId.userNotif w, d))).filter
      (fun p => p.1 == GroupId.userNotif v)).length = l.count v := by
  induction l with
  | nil => simp
  | cons w t ih =>
    by_cases hw : w = v
    · subst hw
      simp [List.count_cons, ih]
    · simpa [List.count_cons, hw, Ne.symm hw] using ih

/-- The joined member rows of a room have pairwise distinct user ids,
given unique member primary keys, the unique (family, user)
constraint, a duplicate-free room member id list, and the data-model
invariant that room members belong to the owning family. -/
theorem nodup_members_user_ids (members : List Member) (mids : List Nat) (fid : Nat)
    (hmids : mids.Nodup)
    (hmn : (members.map (·.id)).Nodup)
    (hfam : (members.map (fun m => (m.familyId, m.userId))).Nodup)
    (hinv : ∀ mid ∈ mids, ∃ m ∈ members, m.id = mid ∧ m.familyId = fid) :
    ((mids.filterMap (fun mid => members.find? (fun m => m.id == mid))).map
      (·.userId)).Nodup := by
  induction mids with
  | nil => simp
  | cons mid rest ih =>
    obtain ⟨m0, hm0mem, hm0id, hm0fam⟩ := hinv mid (by simp)
    have hfind : (members.find? (fun m => m.id == mid)).isSome :=
      List.find?_isSome.mpr ⟨m0, hm0mem, by simp [hm0id]⟩
    rcases hf : members.find? (fun m => m.id == mid) with _ | m1
    · rw [hf] at hfind
      simp at hfind
    have hm1mem := List.mem_of_find?_eq_some hf
    have hm1id : m1.id = mid := by
      have h2 := List.find?_some hf
      simpa using h2
    have hm1eq : m1 = m0 :=
      List.inj_on_of_nodup_map hmn hm1mem hm0mem (by rw [hm1id, hm0id])
    have hm1fam : m1.familyId = fid := by rw [hm1eq, hm0fam]
    simp only [List.filterMap_cons, hf, List.map_cons, List.nodup_cons]
    constructor
    · intro hcontra
      simp only [List.mem_map, List.mem_filterMap] at hcontra
      obtain ⟨m2, ⟨mid2, hmid2, hf2⟩, huid⟩ := hcontra
      have hm2mem := List.mem_of_find?_eq_some hf2
      have hm2id : m2.id = mid2 := by
        have h2 := List.find?_some hf2
        simpa using h2
      obtain ⟨m3, hm3mem, hm3id, hm3fam⟩ := hinv mid2 (by simp [hmid2])
      have hm2eq : m2 = m3 :=
        List.inj_on_of_nodup_map hmn hm2mem hm3mem (by rw [hm2id, hm3id])
      have hm2fam : m2.familyId = fid := by rw [hm2eq, hm3fam]
      have hpair : m1 = m2 :=
        List.inj_on_of_nodup_map hfam hm1mem hm2mem
          (by rw [hm1fam, hm2fam, huid])
      have : mid = mid2 := by rw [← hm1id, hpair, hm2id]
      rw [this] at hmids
      exact (List.nodup_cons.mp hmids).1 hmid2
    · exact ih (List.nodup_cons.mp hmids).2
        (fun mid2 hmid2 => hinv mid2 (by simp [hmid2]))

/-- The user id list the fan-out iterates is duplicate-free under the
schema constraints and the room membership invariant. -/
theorem nodup_room_user_ids (db : DB) (rid : Nat) (hwf : db.wf)
    (hinv : ∀ room ∈ db.rooms, roomMembersInFamily db room) :
    (get_room_member_user_ids db rid).Nodup := by
  obtain ⟨hrn, hmn, hfam, hmem⟩ := hwf
  rcases hf : db.rooms.find? (fun r => r.id == rid) with _ | room
  · simp [get_room_member_user_ids, hf]
  · have hroom := List.mem_of_find?_eq_some hf
    simp only [get_room_member_user_ids, hf]
    exact nodup_members_user_ids db.members room.memberIds room.familyId
      (hmem room hroom) hmn hfam (hinv room hroom)

/-- C2: a message accepted for persistence is published to the room
group exactly once, and a notification event is published exactly
once to the user notification group of each current room member other
than the sender, and never to the sender.s own group. Holds under the
schema constraints (DB.wf) and the data-model invariant that room
members belong to the owning family. -/
theorem chat_c2_fanout_exactly_once (db db2 : DB) (u : User) (roomIdStr : String)
    (ty ct iv : Option J) (msg : Message)
    (hwf : db.wf)
    (hinv : ∀ room ∈ db.rooms, roomMembersInFamily db room)
    (hty : ty.getD (J.str "message") = J.str "message")
    (hct : (ct.getD J.null).truthy = true)
    (hiv : (iv.getD J.null).truthy = true)
    (hsave : save_message db (pyInt roomIdStr) u (ct.getD J.null) (iv.getD J.null) =
      (some msg, db2))
    (out : RecvOut)
    (hout : ChatConsumer.receive db (.auth u) roomIdStr (.obj ty ct iv) = out) :
    out.roomSends.map (·.1) = [GroupId.room roomIdStr] ∧
    (∀ v ∈ get_room_member_user_ids db (pyInt roomIdStr), v ≠ u.id →
      (out.notifSends.filter (fun p => p.1 == GroupId.userNotif v)).length = 1) ∧
    (out.notifSends.filter (fun p => p.1 == GroupId.userNotif u.id)).length = 0 := by
  obtain ⟨hr, hm, -, -, -⟩ :=
    save_message_some db db2 (pyInt roomIdStr) u _ _ msg hsave
  have hguids : get_room_member_user_ids db2 (pyInt roomIdStr) =
      get_room_member_user_ids db (pyInt roomIdStr) := by
    unfold get_room_member_user_ids
    rw [hr, hm]
  rw [receive_save_some db db2 u roomIdStr ty ct iv msg hty hct hiv hsave] at hout
  subst hout
  refine ⟨rfl, ?_, ?_⟩
  · intro v hv hvne
    simp only [hguids, fanout_count]
    rw [List.count_filter (by simp [hvne])]
    exact List.count_eq_one_of_mem
      (nodup_room_user_ids db (pyInt roomIdStr) hwf hinv) hv
  · simp only [hguids, fanout_count]
    rw [List.count_eq_zero]
    intro hmemv
    have h2 := List.mem_filter.mp hmemv
    simp at h2

/-- Witness for C2 at spec scenario A on demoDb: one room broadcast,
one notification to user 4 and none to the sending user 3. -/
theorem chat_c2_fanout_exactly_once_witness :
    (ChatConsumer.receive demoDb (.auth demoUser) "7" demoSend).roomSends.map (·.1) =
      [GroupId.room "7"] ∧
    (∀ v ∈ get_room_member_user_ids demoDb (pyInt "7"), v ≠ demoUser.id →
      ((ChatConsumer.receive demoDb (.auth demoUser) "7" demoSend).notifSends.filter
        (fun p => p.1 == GroupId.userNotif v)).length = 1) ∧
    ((ChatConsumer.receive demoDb (.auth demoUser) "7" demoSend).notifSends.filter
      (fun p => p.1 == GroupId.userNotif demoUser.id)).length = 0 :=
  chat_c2_fanout_exactly_once demoDb
    { demoDb with messages := [⟨1, 7, 2, [102, 111, 111], [49, 50], 1⟩],
                  nextMessageId := 2 }
    demoUser "7" none (some (J.str "Zm9v")) (some (J.str "MTI="))
    ⟨1, 7, 2, [102, 111, 111], [49, 50], 1⟩
    (by decide) (by decide) (by decide) (by decide) (by decide) (by decide)
    (ChatConsumer.receive demoDb (.auth demoUser) "7" demoSend) rfl

/-- An ordering witness mentions only message ids present in the log. -/
theorem beforeMsg_mem (l : List (Nat × Nat)) (a b : Nat)
    (h : beforeMsg l a b = true) :
    a ∈ l.map (·.2) ∧ b ∈ l.map (·.2) := by
  induction l with
  | nil => simp [beforeMsg] at h
  | cons x rest ih =>
    simp only [beforeMsg] at h
    by_cases hx : x.2 = a
    · rw [if_pos (by simp [hx])] at h
      obtain ⟨y, hy, hyb⟩ := List.any_eq_true.mp h
      refine ⟨by simp [hx], ?_⟩
      simp only [List.map_cons]
      exact List.mem_cons_of_mem _ (List.mem_map.mpr ⟨y, hy, by simpa using hyb⟩)
    · rw [if_neg (by simp [hx])] at h
      have h2 := ih h
      exact ⟨by simp [h2.1], by simp [h2.2]⟩

/-- In a duplicate-free log split as a prefix and a tail, an ordering
witness whose second message lies in the prefix restricts to the
prefix. -/
theorem beforeMsg_append_left (l t : List (Nat × Nat)) (a b : Nat)
    (h : beforeMsg (l ++ t) a b = true)
    (hb : b ∈ l.map (·.2))
    (hnd : ((l ++ t).map (·.2)).Nodup) :
    beforeMsg l a b = true := by
  induction l with
  | nil => simp at hb
  | cons x rest ih =>
    have hndx : x.2 ∉ (rest ++ t).map (·.2) := by
      have h2 : ((x :: (rest ++ t)).map (·.2)).Nodup := by simpa using hnd
      exact (List.nodup_cons.mp h2).1
    have hndt : ((rest ++ t).map (·.2)).Nodup := by
      have h2 : ((x :: (rest ++ t)).map (·.2)).Nodup := by simpa using hnd
      exact (List.nodup_cons.mp h2).2
    simp only [List.cons_append, beforeMsg] at h ⊢
    by_cases hx : x.2 = a
    · rw [if_pos (by simp [hx])] at h ⊢
      obtain ⟨y, hy, hyb⟩ := List.any_eq_true.mp h
      have hyb2 : y.2 = b := by simpa using hyb
      rcases List.mem_append.mp hy with hyl | hyt
      · exact List.any_eq_true.mpr ⟨y, hyl, hyb⟩
      · exfalso
        have hbt : b ∈ t.map (·.2) := List.mem_map.mpr ⟨y, hyt, hyb2⟩
        have hb2 : b = x.2 ∨ b ∈ rest.map (·.2) := by
          rw [List.map_cons] at hb
          exact List.mem_cons.mp hb
        rcases hb2 with hbx | hbr
        · refine hndx ?_
          rw [← hbx]
          simp only [List.map_append]
          exact List.mem_append_right _ hbt
        · have hdisj := List.disjoint_of_nodup_append (by simpa using hndt)
          exact hdisj hbr hbt
    · rw [if_neg (by simp [hx])] at h ⊢
      have hb2 : b = x.2 ∨ b ∈ rest.map (·.2) := by
        rw [List.map_cons] at hb
        exact List.mem_cons.mp hb
      rcases hb2 with hbx | hbr
      · exfalso
        have h2 := (beforeMsg_mem _ a b h).2
        rw [← hbx] at hndx
        exact hndx h2
      · exact ih h hbr hndt

/-- In a duplicate-free log, an ordering witness in a filtered view
lifts to the full log. -/
theorem beforeMsg_of_filter (l : List (Nat × Nat)) (p : Nat × Nat → Bool) (a b : Nat)
    (h : beforeMsg (l.filter p) a b = true)
    (hnd : (l.map (·.2)).Nodup) :
    beforeMsg l a b = true := by
  induction l with
  | nil => simp [beforeMsg] at h
  | cons x rest ih =>
    have hndx : x.2 ∉ rest.map (·.2) := (List.nodup_cons.mp (by simpa using hnd)).1
    have hndt : (rest.map (·.2)).Nodup := (List.nodup_cons.mp (by simpa using hnd)).2
    simp only [List.filter_cons] at h
    by_cases hpx : p x = true
    · rw [if_pos hpx] at h
      simp only [beforeMsg] at h ⊢
      by_cases hx : x.2 = a
      · rw [if_pos (by simp [hx])] at h ⊢
        obtain ⟨y, hy, hyb⟩ := List.any_eq_true.mp h
        exact List.any_eq_true.mpr ⟨y, List.mem_of_mem_filter hy, hyb⟩
      · rw [if_neg (by simp [hx])] at h ⊢
        exact ih h hndt
    · rw [if_neg hpx] at h
      have h2 : beforeMsg rest a b = true := ih h hndt
      simp only [beforeMsg]
      by_cases hx : x.2 = a
      · exfalso
        have h3 := (beforeMsg_mem _ a b h2).1
        rw [← hx] at h3
        exact hndx h3
      · rw [if_neg (by simp [hx])]
        exact h2

/-- Unfolding of association lookup on a cons cell. -/
theorem lookup_cons_pair (k v c : Nat) (l : List (Nat × Nat)) :
    ((k, v) :: l).lookup c = if c = k then some v else l.lookup c := by
  by_cases h : c = k
  · simp [List.lookup, h]
  · have h2 : (c == k) = false := by simpa using h
    simp [List.lookup, h2, h]

/-- Removing the entries of key c from an association list makes a
lookup of c fail. -/
theorem lookup_filter_self (l : List (Nat × Nat)) (c : Nat) :
    (l.filter (fun e => e.1 ≠ c)).lookup c = none := by
  induction l with
  | nil => rfl
  | cons x rest ih =>
    rcases x with ⟨k, v⟩
    by_cases hk : k = c
    · subst hk
      simp only [List.filter_cons]
      rw [if_neg (by simp)]
      exact ih
    · simp only [List.filter_cons]
      rw [if_pos (by simpa using hk)]
      rw [lookup_cons_pair]
      rw [if_neg (fun h2 => hk h2.symm)]
      exact ih

/-- Removing the entries of key c from an association list does not
change a lookup of a different key. -/
theorem lookup_filter_ne (l : List (Nat × Nat)) (c c2 : Nat) (h : c2 ≠ c) :
    (l.filter (fun e => e.1 ≠ c)).lookup c2 = l.lookup c2 := by
  induction l with
  | nil => rfl
  | cons x rest ih =>
    rcases x with ⟨k, v⟩
    by_cases hk : k = c
    · subst hk
      simp only [List.filter_cons]
      rw [if_neg (by simp)]
      rw [lookup_cons_pair, if_neg h]
      exact ih
    · simp only [List.filter_cons]
      rw [if_pos (by simpa using hk)]
      rw [lookup_cons_pair, lookup_cons_pair]
      by_cases h2 : c2 = k
      · rw [if_pos h2, if_pos h2]
      · rw [if_neg h2, if_neg h2]
        exact ih

/-- The single in-flight send of connection c: its saved but not yet
published message, if any. -/
def pendingOf (s : SimState) (c : Nat) : List (Nat × Nat) :=
  match s.pending.lookup c with
  | some m => [(c, m)]
  | none => []

/-- Invariant of the send pipeline: message ids are unique in the
store order and in the channel order, and per connection the channel
order extended by the in-flight send equals the store order. -/
def simInv (s : SimState) : Prop :=
  (s.dbLog.map (·.2)).Nodup ∧
  (s.chanLog.map (·.2)).Nodup ∧
  ∀ c : Nat, s.chanLog.filter (fun e => e.1 == c) ++ pendingOf s c =
    s.dbLog.filter (fun e => e.1 == c)

/-- The initial state satisfies the invariant. -/
theorem simInit_inv : simInv simInit := by
  refine ⟨by simp [simInit], by simp [simInit], fun c => ?_⟩
  simp [simInit, pendingOf, List.lookup]

/-- Each interleaving step preserves the pipeline invariant. -/
theorem simStep_inv (s s2 : SimState) (a : SimAct) (hinv : simInv s)
    (h : simStep s a = some s2) : simInv s2 := by
  obtain ⟨hdbN, hchanN, hcorr⟩ := hinv
  cases a with
  | startSend c m =>
    simp only [simStep] at h
    by_cases h1 : (s.pending.lookup c).isSome = true
    · rw [if_pos h1] at h
      simp at h
    rw [if_neg h1] at h
    by_cases h2 : m ∈ s.dbLog.map (·.2)
    · rw [if_pos h2] at h
      simp at h
    rw [if_neg h2] at h
    have hs2 : s2 = ⟨(c, m) :: s.pending, s.dbLog ++ [(c, m)], s.chanLog⟩ :=
      (Option.some.inj h).symm
    subst hs2
    have hlookupC : s.pending.lookup c = none := by
      cases hl : s.pending.lookup c
      · rfl
      · rw [hl] at h1
        simp at h1
    refine ⟨?_, hchanN, ?_⟩
    · simp only [List.map_append]
      simp [List.nodup_append, hdbN, h2]
    · intro c2
      by_cases hc : c2 = c
      · subst hc
        have hpend2 : pendingOf ⟨(c2, m) :: s.pending, s.dbLog ++ [(c2, m)], s.chanLog⟩
            c2 = [(c2, m)] := by
          simp only [pendingOf]
          rw [lookup_cons_pair, if_pos rfl]
        have hpend1 : pendingOf s c2 = [] := by
          simp [pendingOf, hlookupC]
        have h5 := hcorr c2
        rw [hpend1, List.append_nil] at h5
        show s.chanLog.filter (fun e => e.1 == c2) ++
            pendingOf ⟨(c2, m) :: s.pending, s.dbLog ++ [(c2, m)], s.chanLog⟩ c2 =
          (s.dbLog ++ [(c2, m)]).filter (fun e => e.1 == c2)
        rw [hpend2, List.filter_append, h5]
        simp
      · have hpend2 : pendingOf ⟨(c, m) :: s.pending, s.dbLog ++ [(c, m)], s.chanLog⟩
            c2 = pendingOf s c2 := by
          simp only [pendingOf]
          rw [lookup_cons_pair, if_neg hc]
        show s.chanLog.filter (fun e => e.1 == c2) ++
            pendingOf ⟨(c, m) :: s.pending, s.dbLog ++ [(c, m)], s.chanLog⟩ c2 =
          (s.dbLog ++ [(c, m)]).filter (fun e => e.1 == c2)
        rw [hpend2, List.filter_append]
        have h6 : ([(c, m)].filter (fun e => e.1 == c2)) = [] := by
          simp [Ne.symm hc]
        rw [h6, List.append_nil]
        exact hcorr c2
  | finishSend c =>
    simp only [simStep] at h
    rcases hL : s.pending.lookup c with _ | m
    · rw [hL] at h
      simp at h
    rw [hL] at h
    have hs2 : s2 = ⟨s.pending.filter (fun e => e.1 ≠ c), s.dbLog,
        s.chanLog ++ [(c, m)]⟩ := (Option.some.inj h).symm
    subst hs2
    have hcmdb : (c, m) ∈ s.dbLog := by
      have h4 := hcorr c
      have h5 : (c, m) ∈ s.dbLog.filter (fun e => e.1 == c) := by
        rw [← h4]
        refine List.mem_append_right _ ?_
        simp [pendingOf, hL]
      exact List.mem_of_mem_filter h5
    have hmnotin : m ∉ s.chanLog.map (·.2) := by
      intro hmem
      obtain ⟨e, he, he2⟩ := List.mem_map.mp hmem
      have hef : e ∈ s.chanLog.filter (fun x => x.1 == e.1) :=
        List.mem_filter.mpr ⟨he, by simp⟩
      have hedb : e ∈ s.dbLog := by
        have h4 := hcorr e.1
        have h5 : e ∈ s.dbLog.filter (fun x => x.1 == e.1) := by
          rw [← h4]
          exact List.mem_append_left _ hef
        exact List.mem_of_mem_filter h5
      have heq : e = (c, m) :=
        List.inj_on_of_nodup_map hdbN hedb hcmdb (by simp [he2])
      have h4 := hcorr c
      have hdbfN : ((s.dbLog.filter (fun x => x.1 == c)).map (·.2)).Nodup :=
        ((List.filter_sublist s.dbLog).map _).nodup hdbN
      rw [← h4] at hdbfN
      rw [show pendingOf s c = [(c, m)] from by simp [pendingOf, hL]] at hdbfN
      simp only [List.map_append] at hdbfN
      have hdisj := List.disjoint_of_nodup_append hdbfN
      have hmemF : m ∈ (s.chanLog.filter (fun x => x.1 == c)).map (·.2) := by
        refine List.mem_map.mpr ⟨e, ?_, he2⟩
        refine List.mem_filter.mpr ⟨he, ?_⟩
        rw [heq]
        simp
      exact hdisj hmemF (by simp)
    refine ⟨hdbN, ?_, ?_⟩
    · simp only [List.map_append]
      simp [List.nodup_append, hchanN, hmnotin]
    · intro c2
      by_cases hc : c2 = c
      · subst hc
        have hpend2 : pendingOf ⟨s.pending.filter (fun e => e.1 ≠ c2), s.dbLog,
            s.chanLog ++ [(c2, m)]⟩ c2 = [] := by
          simp only [pendingOf]
          rw [lookup_filter_self]
        show (s.chanLog ++ [(c2, m)]).filter (fun e => e.1 == c2) ++
            pendingOf ⟨s.pending.filter (fun e => e.1 ≠ c2), s.dbLog,
              s.chanLog ++ [(c2, m)]⟩ c2 =
          s.dbLog.filter (fun e => e.1 == c2)
        rw [hpend2, List.append_nil, List.filter_append]
        have h6 : ([(c2, m)].filter (fun e => e.1 == c2)) = [(c2, m)] := by simp
        rw [h6]
        have h4 := hcorr c2
        rw [show pendingOf s c2 = [(c2, m)] from by simp [pendingOf, hL]] at h4
        exact h4
      · have hpend2 : pendingOf ⟨s.pending.filter (fun e => e.1 ≠ c), s.dbLog,
            s.chanLog ++ [(c, m)]⟩ c2 = pendingOf s c2 := by
          simp only [pendingOf]
          rw [lookup_filter_ne _ _ _ hc]
        show (s.chanLog ++ [(c, m)]).filter (fun e => e.1 == c2) ++
            pendingOf ⟨s.pending.filter (fun e => e.1 ≠ c), s.dbLog,
              s.chanLog ++ [(c, m)]⟩ c2 =
          s.dbLog.filter (fun e => e.1 == c2)
        rw [hpend2, List.filter_append]
        have h6 : ([(c, m)].filter (fun e => e.1 == c2)) = [] := by
          simp [Ne.symm hc]
        rw [h6, List.append_nil]
        exact hcorr c2

/-- Executions from an invariant state end in an invariant state. -/
theorem simExec_inv (acts : List SimAct) (s s2 : SimState) (hinv : simInv s)
    (h : simExec s acts = some s2) : simInv s2 := by
  induction acts generalizing s with
  | nil =>
    simp only [simExec] at h
    rw [← Option.some.inj h]
    exact hinv
  | cons a rest ih =>
    simp only [simExec] at h
    rcases hs : simStep s a with _ | s1
    · rw [hs] at h
      simp at h
    · rw [hs] at h
      exact ih s1 (simStep_inv s s1 a hinv hs) h

/-- The interleaved execution refuting claim C1: connections 1 and 2
each run one send; connection 1 persists message 10 first, then
connection 2 persists message 20 and publishes it while connection 1
is still suspended between its two awaits, and connection 1 publishes
last. -/
def c1CexActs : List SimAct :=
  [.startSend 1 10, .startSend 2 20, .finishSend 2, .finishSend 1]

/-- The final state of the refuting interleaving. -/
def c1CexState : SimState := ⟨[], [(1, 10), (2, 20)], [(2, 20), (1, 10)]⟩

/-- C1 counterexample: a valid interleaving of two senders in one room
in which message 10 is persisted before message 20, yet the channel
delivers message 20 before message 10 to every subscriber that
observes both, so broadcast order does not equal persistence order
across connections. -/
theorem chat_c1_counterexample :
    simExec simInit c1CexActs = some c1CexState ∧
    beforeMsg c1CexState.dbLog 10 20 = true ∧
    beforeMsg c1CexState.chanLog 10 20 = false ∧
    beforeMsg c1CexState.chanLog 20 10 = true :=
  ⟨by decide, by decide, by decide, by decide⟩

/-- C1 amended: for every reachable state of the send pipeline and
every pair of messages persisted by the same connection, if m1 was
persisted before m2 and m2 has been broadcast, then every subscriber
receives m1 before m2 (the channel preserves per-connection order);
across distinct connections no such guarantee holds. -/
theorem chat_c1_same_connection_order (acts : List SimAct) (s : SimState)
    (c m1 m2 : Nat)
    (hex : simExec simInit acts = some s)
    (hdb : beforeMsg (s.dbLog.filter (fun e => e.1 == c)) m1 m2 = true)
    (hchan : m2 ∈ s.chanLog.map (·.2)) :
    beforeMsg s.chanLog m1 m2 = true := by
  obtain ⟨hdbN, hchanN, hcorr⟩ := simExec_inv acts simInit s simInit_inv hex
  have h3 := hcorr c
  obtain ⟨e, he, he2⟩ := List.mem_map.mp hchan
  obtain ⟨f, hf, hf2⟩ := List.mem_map.mp (beforeMsg_mem _ m1 m2 hdb).2
  have hfdb : f ∈ s.dbLog := List.mem_of_mem_filter hf
  have hedb : e ∈ s.dbLog := by
    have hef : e ∈ s.chanLog.filter (fun x => x.1 == e.1) :=
      List.mem_filter.mpr ⟨he, by simp⟩
    have h5 : e ∈ s.dbLog.filter (fun x => x.1 == e.1) := by
      rw [← hcorr e.1]
      exact List.mem_append_left _ hef
    exact List.mem_of_mem_filter h5
  have hef : e = f := List.inj_on_of_nodup_map hdbN hedb hfdb (by rw [he2, hf2])
  have hfc : f.1 = c := by simpa using (List.mem_filter.mp hf).2
  have hechanF : e ∈ s.chanLog.filter (fun x => x.1 == c) :=
    List.mem_filter.mpr ⟨he, by simp [hef, hfc]⟩
  have hdbfN : ((s.dbLog.filter (fun x => x.1 == c)).map (·.2)).Nodup :=
    ((List.filter_sublist s.dbLog).map _).nodup hdbN
  have hchanF : beforeMsg (s.chanLog.filter (fun x => x.1 == c)) m1 m2 = true := by
    apply beforeMsg_append_left _ (pendingOf s c) m1 m2
    · rw [h3]
      exact hdb
    · exact List.mem_map.mpr ⟨e, hechanF, he2⟩
    · rw [h3]
      exact hdbfN
  exact beforeMsg_of_filter s.chanLog _ m1 m2 hchanF hchanN

/-- Witness for C1 amended: one connection sends messages 10 then 11;
both are delivered in that order. -/
theorem chat_c1_same_connection_order_witness :
    beforeMsg (⟨[], [(1, 10), (1, 11)], [(1, 10), (1, 11)]⟩ : SimState).chanLog
      10 11 = true :=
  chat_c1_same_connection_order
    [.startSend 1 10, .finishSend 1, .startSend 1 11, .finishSend 1]
    ⟨[], [(1, 10), (1, 11)], [(1, 10), (1, 11)]⟩ 1 10 11
    (by decide) (by decide) (by decide)
